import Mathlib

/-!
Verification of the Claude Code Voice context server (`src/claude_voice/server.py`).

This file gives a shallow embedding of the webhook server: the project store,
the config store, the sandboxed tool executor (`list_projects`,
`get_project_context`, `read_file`, `search_code`), the caller resolver inside
`handle_assistant_request`, the call-completion persister
`handle_end_of_call_report`, and the `do_POST` dispatcher.

Modelling conventions:
- The on-disk projects directory is a `Store`: an association list from file
  stem (the `.json` filename without extension, in glob order) to the parse
  result of the file; `none` models a document that `json.loads` rejects.
- Python exceptions are modelled with `Except String`; a function that can
  only fail by raising is total.
- The filesystem seen by `read_file` and `search_code` is an explicit `FS`
  (no symlinks; `Path.resolve` is purely lexical on such a filesystem).
- Python `str.lower` is modelled on the ASCII range, as Lean does.
- `grep -r -n -i PATTERN PATH` is modelled as a case-insensitive substring
  scan over the allow-listed files below PATH (the claims under study use
  only queries without regex metacharacters).
-/

namespace CVoice

/-- Lower-case a character, as Python `str.lower` does on the ASCII range. -/
def charLower (c : Char) : Char :=
  if 65 ≤ c.toNat ∧ c.toNat ≤ 90 then Char.ofNat (c.toNat + 32) else c

/-- Model of Python `str.lower` (ASCII range). -/
def strLower (s : String) : String :=
  String.mk (s.data.map charLower)

/-- Does the list `l` begin with the list `p`? -/
def startsWithL {α : Type} [BEq α] : List α → List α → Bool
  | _, [] => true
  | [], _ :: _ => false
  | x :: xs, y :: ys => x == y && startsWithL xs ys

/-- Model of Python `str.startswith`. -/
def strStartsWith (s pre : String) : Bool :=
  startsWithL s.data pre.data

/-- Does the string `s` end with `suf`? Used for `--include=*.ext` globs. -/
def strEndsWith (s suf : String) : Bool :=
  startsWithL s.data.reverse suf.data.reverse

/-- Does `l` contain `q` as a contiguous run? Model of Python `in` on strings. -/
def containsSub : List Char → List Char → Bool
  | [], q => q.isEmpty
  | c :: rest, q => startsWithL (c :: rest) q || containsSub rest q

/-- Case-insensitive substring test, the `grep -i` match model. -/
def ciContains (line q : String) : Bool :=
  containsSub (line.data.map charLower) (q.data.map charLower)

/-- Replace every occurrence of the nonempty pattern, fuel-indexed for
termination; model of Python `str.replace` (the server only calls it with a
nonempty pattern). -/
def replAux : Nat → List Char → List Char → List Char → List Char
  | 0, l, _, _ => l
  | _ + 1, [], _, _ => []
  | fuel + 1, c :: rest, pat, rep =>
    if !pat.isEmpty && startsWithL (c :: rest) pat then
      rep ++ replAux fuel (List.drop pat.length (c :: rest)) pat rep
    else
      c :: replAux fuel rest pat rep

/-- Model of Python `str.replace` (all occurrences). -/
def strReplaceAll (s pat rep : String) : String :=
  String.mk (replAux (s.data.length + 1) s.data pat.data rep.data)

/-- Take the first `n` characters, model of Python slicing `s[:n]`. -/
def strTake (s : String) (n : Nat) : String :=
  String.mk (s.data.take n)

/-- Strict lexicographic order on code-point lists, as Python compares `str`. -/
def listLt : List Char → List Char → Bool
  | [], [] => false
  | [], _ :: _ => true
  | _ :: _, [] => false
  | a :: as, b :: bs =>
    if a.toNat < b.toNat then true
    else if b.toNat < a.toNat then false
    else listLt as bs

/-- Model of Python `<` on strings. -/
def strLtB (a b : String) : Bool :=
  listLt a.data b.data

/-- Join strings with a separator, model of Python `sep.join(xs)`. -/
def joinSep (sep : String) : List String → String
  | [] => ""
  | [x] => x
  | x :: y :: xs => x ++ sep ++ joinSep sep (y :: xs)

/-- Split a character list at `/` into path components. -/
def splitSlashAux : List Char → List Char → List String
  | [], acc => [String.mk acc.reverse]
  | c :: cs, acc =>
    if c == '/' then String.mk acc.reverse :: splitSlashAux cs []
    else splitSlashAux cs (c :: acc)

/-- Split a path string into raw components (empty components kept). -/
def splitPath (s : String) : List String :=
  splitSlashAux s.data []

/-- Lexical resolution of path components against a resolved base:
`..` pops, `.` and empty components vanish.  This is what `Path.resolve`
computes on a filesystem without symlinks. -/
def resolveComps : List String → List String → List String
  | base, [] => base
  | base, c :: cs =>
    if c == ".." then resolveComps base.dropLast cs
    else if c == "." || c == "" then resolveComps base cs
    else resolveComps (base ++ [c]) cs

/-- Render resolved absolute components the way `str(Path(...))` does. -/
def renderAbs (comps : List String) : String :=
  "/" ++ joinSep "/" comps

/-- Is `p` a genuine descendant-or-self of `base`, component by component?
This is the path-containment notion of "inside the project directory". -/
def compsUnder (base p : List String) : Bool :=
  startsWithL p base

/-- Split a character list at newlines, keeping every segment. -/
def nlSegsAux : List Char → List Char → List (List Char)
  | [], acc => [acc.reverse]
  | c :: cs, acc =>
    if c == '\n' then acc.reverse :: nlSegsAux cs []
    else nlSegsAux cs (c :: acc)

/-- The lines of a text, as both `str.splitlines` and `grep` count them
(only `\n` terminators are modelled). -/
def pyLines (l : List Char) : List (List Char) :=
  if l.isEmpty then []
  else
    let segs := nlSegsAux l []
    if (segs.getLast?.getD []).isEmpty then segs.dropLast else segs

/-- Number of lines of a string, model of `len(content.splitlines())`. -/
def linesCount (s : String) : Nat :=
  (pyLines s.data).length

/-- Python truthiness of an optional string: `None` and `""` are falsy. -/
def pyTruthy : Option String → Bool
  | none => false
  | some s => s != ""

/-- Python `str()` of an optional string, as an f-string renders it. -/
def pyStrOpt : Option String → String
  | none => "None"
  | some s => s

/-- Single-quote a string, as the server f-strings do in error messages. -/
def q (s : String) : String :=
  "\x27" ++ s ++ "\x27"

/-- JSON-serializable values, the result currency of the tool executor. -/
inductive Json where
  | null : Json
  | bool (b : Bool) : Json
  | num (n : Rat) : Json
  | str (s : String) : Json
  | arr (xs : List Json) : Json
  | obj (fields : List (String × Json)) : Json

/-- A structured error result, `{"error": msg}`. -/
def errJ (msg : String) : Json :=
  Json.obj [("error", Json.str msg)]

/-- Field lookup in a JSON object. -/
def jget (j : Json) (k : String) : Option Json :=
  match j with
  | Json.obj fields => (fields.find? (fun e => e.1 == k)).map (·.2)
  | _ => none

/-- String field lookup in a JSON object. -/
def jgetStr (j : Json) (k : String) : Option String :=
  match jget j k with
  | some (Json.str s) => some s
  | _ => none

/-- JSON encoding of an optional string (`None` encodes to `null`). -/
def optStrJ : Option String → Json
  | some s => Json.str s
  | none => Json.null

/-- The `context` snapshot embedded in a project document; every field may be
absent, `dict.get` defaults are applied at each use site as the source does. -/
structure Snapshot where
  description : Option String
  project_type : Option String
  git_summary : Option String
  todos : Option (List String)
  recent_files : Option (List String)
  recent_commits : Option (List String)
deriving DecidableEq

/-- A snapshot with every field absent, the `dict.get("context", {})` default. -/
def emptySnap : Snapshot :=
  ⟨none, none, none, none, none, none⟩

/-- A parsed project document. -/
structure Project where
  name : Option String
  path : Option String
  context : Option Snapshot
  last_context_update : Option String
deriving DecidableEq

/-- The projects directory: file stems in glob order, each mapped to the parse
result of its document (`none` = `json.loads` raises on that file). -/
abbrev Store := List (String × Option Project)

/-- A user profile entry of the config. -/
structure UserProfile where
  name : Option String
  last_project : Option String
deriving DecidableEq

/-- The config document (the fields the server reads). -/
structure Config where
  users : List (String × UserProfile)
  user_phone : Option String
  tool_ids : List (String × String)
deriving DecidableEq

/-- Dict lookup in the users map. -/
def lookupUser (users : List (String × UserProfile)) (phone : String) :
    Option UserProfile :=
  (users.find? (fun e => e.1 == phone)).map (·.2)

/-- The filesystem visible to `read_file` and `search_code`: regular files
with contents, plus directories, both keyed by resolved absolute components. -/
structure FS where
  files : List (List String × String)
  dirs : List (List String)

/-- Is there a regular file at `p`? -/
def fsIsFile (fs : FS) (p : List String) : Bool :=
  (fs.files.find? (fun e => e.1 == p)).isSome

/-- Does anything exist at `p`? -/
def fsExists (fs : FS) (p : List String) : Bool :=
  fsIsFile fs p || fs.dirs.contains p

/-- Content of the regular file at `p`, if any. -/
def fsRead (fs : FS) (p : List String) : Option String :=
  (fs.files.find? (fun e => e.1 == p)).map (·.2)

/-- Translation of `load_project` (server.py lines 47-58): exact filename
match first, then the first case-insensitive stem match in glob order.
A matching document that does not parse makes `json.loads` raise, which the
source does not catch. -/
def load_project (store : Store) (name : String) :
    Except String (Option Project) :=
  match store.find? (fun e => e.1 == name) with
  | some e =>
    match e.2 with
    | some p => Except.ok (some p)
    | none => Except.error "JSONDecodeError"
  | none =>
    match store.find? (fun e => strLower e.1 == strLower name) with
    | some e =>
      match e.2 with
      | some p => Except.ok (some p)
      | none => Except.error "JSONDecodeError"
    | none => Except.ok none

/-- Translation of `list_all_projects` (server.py lines 61-74): documents that
fail to parse are skipped by the `try`/`except`. -/
def list_all_projects (store : Store) : Json :=
  Json.arr (store.filterMap (fun e =>
    match e.2 with
    | some data =>
      some (Json.obj
        [("name", Json.str (data.name.getD e.1)),
         ("description",
          Json.str ((data.context.getD emptySnap).description.getD "")),
         ("path", Json.str (data.path.getD ""))])
    | none => none))

/-- Translation of `get_project_context` (server.py lines 77-92). -/
def get_project_context (store : Store) (project_name : String) :
    Except String Json :=
  match load_project store project_name with
  | Except.error e => Except.error e
  | Except.ok po =>
  match po with
  | none =>
    Except.ok (errJ ("Project " ++ q project_name ++
      " not found. Use list_projects to see available projects."))
  | some project =>
    let ctx := project.context.getD emptySnap
    Except.ok (Json.obj
      [("name", optStrJ project.name),
       ("path", optStrJ project.path),
       ("description", Json.str (ctx.description.getD "No description")),
       ("project_type", Json.str (ctx.project_type.getD "Unknown")),
       ("git_status", Json.str (ctx.git_summary.getD "No git info")),
       ("todos", Json.arr ((ctx.todos.getD []).map Json.str)),
       ("recent_files",
        Json.arr (((ctx.recent_files.getD []).take 10).map Json.str))])

/-- Translation of `read_file` (server.py lines 95-129).  The security guard
is a string-prefix test on the rendered resolved paths:
`str(full_path).startswith(str(project_path))`. -/
def read_file (store : Store) (fs : FS) (project_name file_path : String) :
    Except String Json :=
  match load_project store project_name with
  | Except.error e => Except.error e
  | Except.ok po =>
  match po with
  | none =>
    Except.ok (errJ ("Project " ++ q project_name ++ " not found"))
  | some project =>
    let ppStr := project.path.getD ""
    let projComps := resolveComps [] (splitPath ppStr)
    let fullComps :=
      if strStartsWith file_path "/" then resolveComps [] (splitPath file_path)
      else resolveComps [] (splitPath ppStr ++ splitPath file_path)
    if !(strStartsWith (renderAbs fullComps) (renderAbs projComps)) then
      Except.ok (errJ "Access denied: file outside project directory")
    else if !(fsExists fs fullComps) then
      Except.ok (errJ ("File not found: " ++ file_path))
    else if !(fsIsFile fs fullComps) then
      Except.ok (errJ ("Not a file: " ++ file_path))
    else
      match fsRead fs fullComps with
      | some content =>
        let content :=
          if content.length > 2000 then
            strTake content 2000 ++ "\n... [truncated for voice]"
          else content
        Except.ok (Json.obj
          [("file", Json.str file_path),
           ("content", Json.str content),
           ("lines", Json.num (linesCount content))])
      | none => Except.ok (errJ "Could not read file: ")

/-- The `--include` allow-list of `search_code`. -/
def allowedExt (fname : String) : Bool :=
  strEndsWith fname ".py" || strEndsWith fname ".js" ||
  strEndsWith fname ".ts" || strEndsWith fname ".tsx" ||
  strEndsWith fname ".swift" || strEndsWith fname ".json" ||
  strEndsWith fname ".md"

/-- Format the matching lines of one file the way `grep -r -n -i` prints
them: `PATHARG/relative:lineno:text`. -/
def grepFile (pathArg : String) (rel : String) (content : String)
    (query : String) : List String :=
  ((pyLines content.data).enum.filterMap (fun e =>
    if ciContains (String.mk e.2) query then
      some (pathArg ++ "/" ++ rel ++ ":" ++ toString (e.1 + 1) ++ ":" ++
        String.mk e.2)
    else none))

/-- All output lines of `grep -r -n -i --include=... QUERY PATHARG` over the
modelled filesystem, in walk order.  A path argument that is not absolute is
modelled as producing no output (grep fails and the server then sees empty
stdout). -/
def grepLines (fs : FS) (pathArg query : String) : List String :=
  if !(strStartsWith pathArg "/") then []
  else
    let base := resolveComps [] (splitPath pathArg)
    (fs.files.filterMap (fun f =>
      if compsUnder base f.1 && decide (base.length < f.1.length) &&
          allowedExt ((f.1.getLast?).getD "") then
        some (grepFile pathArg (joinSep "/" (f.1.drop base.length)) f.2 query)
      else none)).flatten

/-- Translation of `search_code` (server.py lines 132-162). -/
def search_code (store : Store) (fs : FS) (project_name query : String) :
    Except String Json :=
  match load_project store project_name with
  | Except.error e => Except.error e
  | Except.ok po =>
  match po with
  | none =>
    Except.ok (errJ ("Project " ++ q project_name ++ " not found"))
  | some project =>
    let project_path := project.path.getD ""
    if !(fsExists fs (resolveComps [] (splitPath project_path))) then
      Except.ok (errJ ("Project path not found: " ++ project_path))
    else
      let ms := (grepLines fs project_path query).take 10
      if ms.isEmpty then
        Except.ok (Json.obj
          [("query", Json.str query),
           ("matches", Json.arr []),
           ("message", Json.str "No matches found")])
      else
        let cleaned := ms.map (fun m =>
          strTake (strReplaceAll m (project_path ++ "/") "") 200)
        Except.ok (Json.obj
          [("query", Json.str query),
           ("matches", Json.arr (cleaned.map Json.str))])

/-- Translation of `build_system_prompt` (server.py lines 165-201), the
f-string template assembled field by field. -/
def build_system_prompt (project : Project) (topic : String) : String :=
  let context := project.context.getD emptySnap
  let todosBody :=
    joinSep "\n" (((context.todos.getD ["No todos"]).map
      (fun t => "- " ++ t)).take 10)
  "You are Claude, a technical co-pilot having a phone conversation with a developer.\n\nPERSONALITY:\n- Warm, friendly, conversational - like a colleague on a call\n- Keep responses SHORT - 1-2 sentences usually. This is voice, not text.\n- Technical but explains in plain language when needed\n- Proactive - suggest ideas, spot issues, help brainstorm\n\nPROJECT: "
  ++ project.name.getD "Unknown"
  ++ "\nType: " ++ context.project_type.getD "Unknown"
  ++ "\nDescription: " ++ context.description.getD "No description"
  ++ "\nPath: " ++ project.path.getD ""
  ++ "\n\nGIT STATUS:\n" ++ context.git_summary.getD "No git info"
  ++ "\nRecent commits: "
  ++ joinSep "\n" ((context.recent_commits.getD ["No recent commits"]).take 5)
  ++ "\n\nCURRENT TODOS:\n"
  ++ (if todosBody == "" then "No todos" else todosBody)
  ++ "\n\nRECENT FILES:\n"
  ++ joinSep "\n" ((context.recent_files.getD ["No files tracked"]).take 10)
  ++ "\n\nDISCUSSION TOPIC: " ++ topic
  ++ "\n\nYou have tools available to:\n- list_projects: See all registered projects\n- get_project_context: Get fresh context for any project\n- read_file: Read a specific file (summarize for voice)\n- search_code: Search for code patterns\n\nUse tools when you need LIVE data. The context above is a snapshot.\nKeep responses brief and conversational. Ask clarifying questions. Help brainstorm."

/-- The parseable store entries paired with their sort key, model of the
`projects` list built by `get_most_recent_project` (the `try`/`except`
skips unparseable documents). -/
def recentEntries (store : Store) : List (String × Project) :=
  store.filterMap (fun e =>
    e.2.map (fun p => (p.last_context_update.getD "", p)))

/-- Stable insertion for a descending sort on the timestamp key, model of
`list.sort(key=lambda x: x[0], reverse=True)`. -/
def insortD (x : String × Project) :
    List (String × Project) → List (String × Project)
  | [] => [x]
  | y :: ys => if strLtB x.1 y.1 then y :: insortD x ys else x :: y :: ys

/-- Descending stable sort on the timestamp key. -/
def sortD : List (String × Project) → List (String × Project)
  | [] => []
  | x :: xs => insortD x (sortD xs)

/-- Translation of `get_most_recent_project` (server.py lines 204-217). -/
def get_most_recent_project (store : Store) : Option Project :=
  match sortD (recentEntries store) with
  | [] => none
  | e :: _ => some e.2

/-- The `arguments` field of a tool invocation: either an already-structured
object, or a JSON-encoded string carried together with its decoding
(`none` when `json.loads` would fail, in which case the source falls back to
`{}`; a string decoding to a non-object is not modelled, no claim uses one). -/
inductive ToolArgs where
  | obj (fields : List (String × Json))
  | strEnc (dec : Option (List (String × Json)))

/-- One entry of `message.toolCalls[]`. -/
structure Invocation where
  id : Option String
  fname : Option String
  args : ToolArgs

/-- The argument dict after the `isinstance(args, str)` normalization. -/
def coerceArgs : ToolArgs → List (String × Json)
  | ToolArgs.obj fields => fields
  | ToolArgs.strEnc (some fields) => fields
  | ToolArgs.strEnc none => []

/-- Model of `args.get(key, "")` followed by f-string interpolation into the
tool functions (composite values render as empty, no claim passes one). -/
def getStrArg (args : List (String × Json)) (k : String) : String :=
  match (args.find? (fun e => e.1 == k)).map (·.2) with
  | some (Json.str s) => s
  | some Json.null => "None"
  | some (Json.num n) => toString n
  | some (Json.bool b) => if b then "True" else "False"
  | some (Json.arr _) => ""
  | some (Json.obj _) => ""
  | none => ""

/-- The inbound webhook message fields the server reads, with absent JSON
fields as `none` (`dict.get` defaults are applied at each use site). -/
structure Msg where
  mtype : Option String
  toolCalls : List Invocation := []
  customerNumber : Option String := none
  transcript : Option String := none
  summary : Option String := none
  callId : Option String := none
  duration : Option Int := none
  callType : Option String := none
  metaProject : Option String := none
  metaTopic : Option String := none

/-- The assistant config returned to an unrecognized caller
(server.py lines 240-250). -/
def unknownCallerAssistant : Json :=
  Json.obj [("assistant", Json.obj
    [("model", Json.obj
      [("provider", Json.str "anthropic"),
       ("model", Json.str "claude-opus-4-5-20251101"),
       ("temperature", Json.num 0.7)]),
     ("voice", Json.obj
      [("provider", Json.str "openai"), ("voiceId", Json.str "alloy")]),
     ("firstMessage", Json.str "Hey! I don\x27t recognize this number. If you\x27ve set up Claude Voice, make sure you\x27re calling from your registered phone number.")])]

/-- The assistant config returned when the caller is known but no project is
registered (server.py lines 262-273). -/
def noProjectsAssistant (userName : String) : Json :=
  Json.obj [("assistant", Json.obj
    [("model", Json.obj
      [("provider", Json.str "anthropic"),
       ("model", Json.str "claude-opus-4-5-20251101"),
       ("temperature", Json.num 0.7)]),
     ("voice", Json.obj
      [("provider", Json.str "openai"), ("voiceId", Json.str "alloy")]),
     ("firstMessage", Json.str ("Hey " ++ userName ++ "! I don\x27t see any projects registered yet. Run \x27claude-code-voice register\x27 in a project directory first."))])]

/-- The full assistant config for a known caller with a project
(server.py lines 285-303), including the tool bindings when configured. -/
def assistantWithProject (config : Config) (userName : String)
    (project : Project) : Json :=
  let system_prompt := build_system_prompt project "inbound call"
  let modelFields :=
    [("provider", Json.str "anthropic"),
     ("model", Json.str "claude-opus-4-5-20251101"),
     ("temperature", Json.num 0.7),
     ("messages", Json.arr [Json.obj
       [("role", Json.str "system"), ("content", Json.str system_prompt)]])]
  let toolIds := config.tool_ids.map (·.2)
  let modelFields :=
    if toolIds.isEmpty then modelFields
    else modelFields ++ [("toolIds", Json.arr (toolIds.map Json.str))]
  Json.obj [("assistant", Json.obj
    [("model", Json.obj modelFields),
     ("voice", Json.obj
      [("provider", Json.str "openai"), ("voiceId", Json.str "alloy")]),
     ("firstMessage", Json.str ("Hey " ++ userName ++ "! I\x27ve got " ++
       pyStrOpt project.name ++ " loaded up. What\x27s on your mind?"))])]

/-- The `if project_name: project = load_project(project_name)` step
(server.py lines 253-257): load the profile last project when truthy. -/
def loadLastProject (store : Store) (lp : Option String) :
    Except String (Option Project) :=
  if pyTruthy lp then load_project store (lp.getD "") else Except.ok none

/-- The `if not project: project = get_most_recent_project()` fallback
(server.py lines 259-260). -/
def projectOrRecent (store : Store) (loaded : Option Project) :
    Option Project :=
  match loaded with
  | some p => some p
  | none => get_most_recent_project store

/-- The config after `users[caller_phone]["last_project"] = project.get("name")`. -/
def configWithLastProject (config : Config) (phone : String)
    (pname : Option String) : Config :=
  { config with users := config.users.map (fun e =>
      if e.1 == phone then (e.1, { e.2 with last_project := pname }) else e) }

/-- Translation of `handle_assistant_request` (server.py lines 220-303).
Returns the response body and, when the source calls `save_config`, the
config document it persists. -/
def handle_assistant_request (store : Store) (config : Config) (msg : Msg) :
    Except String (Json × Option Config) :=
  let caller_phone := (msg.customerNumber).getD ""
  let users := config.users
  let user :=
    match lookupUser users caller_phone with
    | some u => some u
    | none =>
      match config.user_phone with
      | some owner =>
        if owner == caller_phone then
          some ({ name := some "there", last_project := none } : UserProfile)
        else none
      | none => none
  match user with
  | none => Except.ok (unknownCallerAssistant, none)
  | some user =>
    let project_name := user.last_project
    match loadLastProject store project_name with
    | Except.error e => Except.error e
    | Except.ok loaded =>
    match projectOrRecent store loaded with
    | none => Except.ok (noProjectsAssistant (user.name.getD "there"), none)
    | some project =>
      let saved :=
        if caller_phone != "" &&
            (users.find? (fun e => e.1 == caller_phone)).isSome then
          some (configWithLastProject config caller_phone project.name)
        else none
      Except.ok
        (assistantWithProject config (user.name.getD "there") project, saved)

/-- The call type classification of `handle_end_of_call_report`
(server.py line 317). -/
def callTypeOf (msg : Msg) : String :=
  if msg.callType == some "inboundPhoneCall" then "Inbound" else "Outbound"

/-- The project-name resolution of `handle_end_of_call_report`
(server.py lines 320-339): call metadata first, then for inbound calls the
caller profile last_project, then the most recent project, else "unknown". -/
def resolveEocProject (store : Store) (config : Config) (msg : Msg) :
    String :=
  let pn := msg.metaProject
  let pn :=
    if !(pyTruthy pn) && callTypeOf msg == "Inbound" then
      let caller_phone := (msg.customerNumber).getD ""
      if caller_phone != "" then
        match lookupUser config.users caller_phone with
        | some u =>
          if pyTruthy u.last_project then u.last_project
          else
            match get_most_recent_project store with
            | some recent => recent.name
            | none => pn
        | none =>
          match get_most_recent_project store with
          | some recent => recent.name
          | none => pn
      else pn
    else pn
  if pyTruthy pn then pn.getD "" else "unknown"

/-- The transcript document text before the transcript body
(server.py lines 351-359). -/
def eocContentPre (store : Store) (config : Config) (nowIso : String)
    (msg : Msg) : String :=
  "# Call Transcript: " ++ resolveEocProject store config msg ++
  "\n\n**Date**: " ++ nowIso ++
  "\n**Topic**: " ++ (msg.metaTopic).getD "general" ++
  "\n**Duration**: " ++ toString ((msg.duration).getD 0) ++ " seconds" ++
  "\n**Type**: " ++ callTypeOf msg ++
  "\n**Call ID**: " ++ (msg.callId).getD "unknown" ++
  "\n\n## Transcript\n\n"

/-- The transcript document text after the transcript body
(server.py lines 363-369). -/
def eocContentPost (msg : Msg) : String :=
  "\n\n## Summary\n\n" ++
  (if (msg.summary).getD "" != "" then (msg.summary).getD ""
   else "No summary available") ++
  "\n\n---\n*Auto-synced by Claude Voice*\n"

/-- Translation of `handle_end_of_call_report` (server.py lines 306-374).
The two `datetime.now()` reads are passed in as `nowStamp` (the
`%Y%m%d_%H%M%S` filename stamp) and `nowIso` (the ISO content stamp);
`transcriptsDir` is the transcripts directory path.  Returns the response
body and the list of `(filename, content)` files written. -/
def handle_end_of_call_report (store : Store) (config : Config)
    (transcriptsDir nowStamp nowIso : String) (msg : Msg) :
    Json × List (String × String) :=
  let transcript := (msg.transcript).getD ""
  let project_name := resolveEocProject store config msg
  if transcript == "" then
    (Json.obj [("status", Json.str "ok"),
               ("message", Json.str "no transcript")], [])
  else
    let filename := nowStamp ++ "_" ++ project_name ++ ".md"
    let content :=
      eocContentPre store config nowIso msg ++ transcript ++
        eocContentPost msg
    (Json.obj [("status", Json.str "ok"),
               ("transcript_path",
                Json.str (transcriptsDir ++ "/" ++ filename))],
     [(filename, content)])

/-- Dispatch of one tool invocation (server.py lines 419-442). -/
def execInvocation (store : Store) (fs : FS) (inv : Invocation) :
    Except String Json :=
  let args := coerceArgs inv.args
  match inv.fname with
  | some "list_projects" => Except.ok (list_all_projects store)
  | some "get_project_context" =>
    get_project_context store (getStrArg args "project_name")
  | some "read_file" =>
    read_file store fs (getStrArg args "project_name")
      (getStrArg args "file_path")
  | some "search_code" =>
    search_code store fs (getStrArg args "project_name")
      (getStrArg args "query")
  | other => Except.ok (errJ ("Unknown tool: " ++ pyStrOpt other))

/-- The `for call in tool_calls` loop of `do_POST` (server.py lines 419-447):
each invocation is executed and its result appended; an exception escaping
any invocation aborts the whole loop, as in the source.  The
`json.dumps(result)` re-encoding of each result is kept as structured JSON
here. -/
def runToolCalls (store : Store) (fs : FS) :
    List Invocation → Except String (List (Option String × Json))
  | [] => Except.ok []
  | inv :: rest =>
    match execInvocation store fs inv with
    | Except.error e => Except.error e
    | Except.ok r =>
      match runToolCalls store fs rest with
      | Except.error e => Except.error e
      | Except.ok rs => Except.ok ((inv.id, r) :: rs)

/-- The outcome of one `POST /` request: HTTP status, response body, the
config persisted by `save_config` (if any), and the transcript files written. -/
structure PostOut where
  status : Nat
  response : Json
  savedConfig : Option Config
  written : List (String × String)

/-- Translation of `VapiHandler.do_POST` (server.py lines 389-452).  `body`
is the request body after `json.loads`: `none` models a body that is not
valid JSON (the 400 branch). -/
def doPost (store : Store) (fs : FS) (config : Config)
    (transcriptsDir nowStamp nowIso : String) (body : Option Msg) :
    Except String PostOut :=
  match body with
  | none => Except.ok ⟨400, errJ "Invalid JSON", none, []⟩
  | some msg =>
    match msg.mtype with
    | some "assistant-request" =>
      match handle_assistant_request store config msg with
      | Except.error e => Except.error e
      | Except.ok (resp, saved) => Except.ok ⟨200, resp, saved, []⟩
    | some "end-of-call-report" =>
      let (resp, written) :=
        handle_end_of_call_report store config transcriptsDir nowStamp
          nowIso msg
      Except.ok ⟨200, resp, none, written⟩
    | some "tool-calls" =>
      match runToolCalls store fs msg.toolCalls with
      | Except.error e => Except.error e
      | Except.ok rs => Except.ok ⟨200,
        Json.obj [("results", Json.arr (rs.map (fun r =>
          Json.obj [("toolCallId", optStrJ r.1), ("result", r.2)])))],
        none, []⟩
    | _ => Except.ok ⟨200, Json.obj [("status", Json.str "ok")], none, []⟩

/-! ### Helper lemmas -/

theorem charOfNat_toNat (n : Nat) (h : n.isValidChar) :
    (Char.ofNat n).toNat = n := by
  unfold Char.ofNat
  rw [dif_pos h]
  rfl

theorem charLower_idem (c : Char) : charLower (charLower c) = charLower c := by
  unfold charLower
  by_cases h : 65 ≤ c.toNat ∧ c.toNat ≤ 90
  · rw [if_pos h]
    have hv : (c.toNat + 32).isValidChar := Or.inl (by omega)
    have ht : (Char.ofNat (c.toNat + 32)).toNat = c.toNat + 32 :=
      charOfNat_toNat _ hv
    rw [if_neg]
    omega
  · rw [if_neg h, if_neg h]

theorem strLower_idem (s : String) : strLower (strLower s) = strLower s := by
  unfold strLower
  simp [List.map_map, Function.comp_def, charLower_idem]

theorem listLt_irrefl (l : List Char) : listLt l l = false := by
  induction l with
  | nil => rfl
  | cons a as ih => simp [listLt, ih]

theorem listLt_asymm (a b : List Char) (h : listLt a b = true) :
    listLt b a = false := by
  induction a generalizing b with
  | nil =>
    cases b with
    | nil => simp [listLt] at h
    | cons y ys => rfl
  | cons x xs ih =>
    cases b with
    | nil => simp [listLt] at h
    | cons y ys =>
      simp only [listLt] at h ⊢
      by_cases h1 : x.toNat < y.toNat
      · rw [if_neg (by omega), if_pos h1]
      · by_cases h2 : y.toNat < x.toNat
        · rw [if_neg h1, if_pos h2] at h
          exact absurd h (by simp)
        · rw [if_neg h1, if_neg h2] at h
          rw [if_neg h2, if_neg h1]
          exact ih ys h

theorem listLt_total_cases (a b c : List Char) (h : listLt a c = true) :
    listLt a b = true ∨ listLt b c = true := by
  induction a generalizing b c with
  | nil =>
    cases c with
    | nil => simp [listLt] at h
    | cons y ys =>
      cases b with
      | nil => right; exact h
      | cons z zs => left; rfl
  | cons x xs ih =>
    cases c with
    | nil => simp [listLt] at h
    | cons y ys =>
      cases b with
      | nil => right; rfl
      | cons z zs =>
        simp only [listLt] at h ⊢
        by_cases hxz : x.toNat < z.toNat
        · left; rw [if_pos hxz]
        · by_cases hzy : z.toNat < y.toNat
          · right; rw [if_pos hzy]
          · by_cases hxy : x.toNat < y.toNat
            · omega
            · rw [if_neg hxy] at h
              by_cases hyx : y.toNat < x.toNat
              · rw [if_pos hyx] at h
                exact absurd h (by simp)
              · rw [if_neg hyx] at h
                have hx : ¬ z.toNat < x.toNat := by omega
                have hy : ¬ y.toNat < z.toNat := by omega
                rw [if_neg hx, if_neg hy, if_neg (by omega),
                  if_neg (by omega)]
                exact ih zs ys h

theorem strLtB_irrefl (a : String) : strLtB a a = false :=
  listLt_irrefl a.data

theorem strLtB_asymm (a b : String) (h : strLtB a b = true) :
    strLtB b a = false :=
  listLt_asymm a.data b.data h

theorem strLtB_total_cases (a b c : String) (h : strLtB a c = true) :
    strLtB a b = true ∨ strLtB b c = true :=
  listLt_total_cases a.data b.data c.data h

theorem mem_insortD (x z : String × Project) (l : List (String × Project))
    (h : z ∈ insortD x l) : z = x ∨ z ∈ l := by
  induction l with
  | nil => simpa [insortD] using h
  | cons y ys ih =>
    simp only [insortD] at h
    by_cases hc : strLtB x.1 y.1
    · rw [if_pos hc] at h
      rcases List.mem_cons.mp h with h1 | h1
      · right; exact List.mem_cons.mpr (Or.inl h1)
      · rcases ih h1 with h2 | h2
        · left; exact h2
        · right; exact List.mem_cons.mpr (Or.inr h2)
    · rw [if_neg hc] at h
      rcases List.mem_cons.mp h with h1 | h1
      · left; exact h1
      · right; exact h1

theorem insortD_ne_nil (x : String × Project) (l : List (String × Project)) :
    insortD x l ≠ [] := by
  cases l with
  | nil => simp [insortD]
  | cons y ys =>
    simp only [insortD]
    by_cases hc : strLtB x.1 y.1
    · rw [if_pos hc]; simp
    · rw [if_neg hc]; simp

theorem sortD_eq_nil (l : List (String × Project)) (h : sortD l = []) :
    l = [] := by
  cases l with
  | nil => rfl
  | cons x xs => exact absurd h (insortD_ne_nil x (sortD xs))

theorem sortD_head_max (l : List (String × Project)) (e : String × Project)
    (rest : List (String × Project)) (h : sortD l = e :: rest) :
    e ∈ l ∧ ∀ z ∈ l, strLtB e.1 z.1 = false := by
  induction l generalizing e rest with
  | nil => simp [sortD] at h
  | cons x xs ih =>
    simp only [sortD] at h
    cases hs : sortD xs with
    | nil =>
      have hxs : xs = [] := sortD_eq_nil xs hs
      rw [hs] at h
      simp only [insortD] at h
      cases h
      constructor
      · exact List.mem_cons_self _ _
      · intro z hz
        rcases List.mem_cons.mp hz with h1 | h1
        · rw [h1]; exact strLtB_irrefl _
        · rw [hxs] at h1; exact absurd h1 (List.not_mem_nil z)
    | cons y ys =>
      rw [hs] at h
      obtain ⟨hy, hmax⟩ := ih y ys hs
      simp only [insortD] at h
      by_cases hc : strLtB x.1 y.1
      · rw [if_pos hc] at h
        cases h
        constructor
        · exact List.mem_cons.mpr (Or.inr hy)
        · intro z hz
          rcases List.mem_cons.mp hz with h1 | h1
          · rw [h1]; exact strLtB_asymm _ _ hc
          · exact hmax z h1
      · rw [if_neg hc] at h
        cases h
        constructor
        · exact List.mem_cons_self _ _
        · intro z hz
          rcases List.mem_cons.mp hz with h1 | h1
          · rw [h1]; exact strLtB_irrefl _
          · by_cases hxz : strLtB x.1 z.1
            · rcases strLtB_total_cases x.1 y.1 z.1 hxz with h2 | h2
              · exact absurd h2 (by simp [hc])
              · exact absurd h2 (by simp [hmax z h1])
            · simpa using hxz

theorem find?_mem_unique {α : Type} (l : List α) (p : α → Bool) (x : α)
    (hmem : x ∈ l) (hpx : p x = true)
    (huniq : ∀ y ∈ l, p y = true → y = x) :
    l.find? p = some x := by
  induction l with
  | nil => exact absurd hmem (List.not_mem_nil x)
  | cons a as ih =>
    by_cases hpa : p a = true
    · have ha : a = x := huniq a (List.mem_cons_self a as) hpa
      rw [List.find?_cons_of_pos as hpa, ha]
    · rw [List.find?_cons_of_neg as (by simp [hpa])]
      have hxa : x ≠ a := fun h => hpa (h ▸ hpx)
      have hmem2 : x ∈ as := by
        rcases List.mem_cons.mp hmem with h | h
        · exact absurd h hxa
        · exact h
      exact ih hmem2 (fun y hy hpy => huniq y (List.mem_cons_of_mem a hy) hpy)

/-- Stems pairwise distinct even after lower-casing: the store invariant
under which case-insensitive lookup is unambiguous. -/
def ciDistinct (store : Store) : Prop :=
  store.Pairwise (fun a b => strLower a.1 ≠ strLower b.1)

theorem ciDistinct_unique (store : Store) (stem : String) (doc : Option Project)
    (hmem : (stem, doc) ∈ store) (hdist : ciDistinct store) :
    ∀ y ∈ store, strLower y.1 = strLower stem → y = (stem, doc) := by
  unfold ciDistinct at hdist
  have hsym : Symmetric
      (fun a b : String × Option Project => strLower a.1 ≠ strLower b.1) :=
    fun a b h he => h he.symm
  intro y hy hls
  by_contra hne
  exact (List.Pairwise.forall hsym hdist hy hmem hne) hls

theorem load_project_ci (store : Store) (stem : String) (doc : Option Project)
    (hmem : (stem, doc) ∈ store) (hdist : ciDistinct store) :
    load_project store stem = load_project store (strLower stem) := by
  have hfind1 : store.find? (fun e => e.1 == stem) = some (stem, doc) := by
    apply find?_mem_unique
    · exact hmem
    · simp
    · intro y hy hpy
      apply ciDistinct_unique store stem doc hmem hdist y hy
      have : y.1 = stem := by simpa using hpy
      rw [this]
  by_cases hfix : strLower stem = stem
  · rw [hfix]
  · have hfind2 : store.find? (fun e => e.1 == strLower stem) = none := by
      rw [List.find?_eq_none]
      intro y hy
      simp only [beq_iff_eq]
      intro hkey
      have hls : strLower y.1 = strLower stem := by
        rw [hkey]; exact strLower_idem stem
      have := ciDistinct_unique store stem doc hmem hdist y hy hls
      rw [this] at hkey
      exact hfix hkey.symm
    have hfind3 :
        store.find? (fun e => strLower e.1 == strLower (strLower stem)) =
          some (stem, doc) := by
      apply find?_mem_unique
      · exact hmem
      · simp [strLower_idem]
      · intro y hy hpy
        apply ciDistinct_unique store stem doc hmem hdist y hy
        have : strLower y.1 = strLower (strLower stem) := by simpa using hpy
        rwa [strLower_idem] at this
    unfold load_project
    rw [hfind1, hfind2, hfind3]

/-- Every document of the store parses: the state in which the tool executor
cannot raise. -/
def wfStore (store : Store) : Prop :=
  ∀ e ∈ store, e.2 ≠ none

theorem load_project_wf (store : Store) (name : String)
    (hwf : wfStore store) :
    ∃ o, load_project store name = Except.ok o := by
  cases h1 : store.find? (fun e => e.1 == name) with
  | some e =>
    have hmem := List.mem_of_find?_eq_some h1
    cases h2 : e.2 with
    | some p => exact ⟨some p, by simp only [load_project, h1, h2]⟩
    | none => exact absurd h2 (hwf e hmem)
  | none =>
    cases h3 : store.find? (fun e => strLower e.1 == strLower name) with
    | some e =>
      have hmem := List.mem_of_find?_eq_some h3
      cases h2 : e.2 with
      | some p => exact ⟨some p, by simp only [load_project, h1, h3, h2]⟩
      | none => exact absurd h2 (hwf e hmem)
    | none => exact ⟨none, by simp only [load_project, h1, h3]⟩

/-- Did the computation return without raising? -/
def isOkB {α : Type} : Except String α → Bool
  | Except.ok _ => true
  | Except.error _ => false

theorem isOkB_exists {α : Type} (x : Except String α) (h : isOkB x = true) :
    ∃ j, x = Except.ok j := by
  cases x with
  | ok j => exact ⟨j, rfl⟩
  | error e => simp [isOkB] at h

theorem isOkB_of_eq_ok {α : Type} (x : Except String α) (j : α)
    (h : x = Except.ok j) : isOkB x = true := by
  rw [h]; rfl

theorem get_project_context_wf (store : Store) (name : String)
    (hwf : wfStore store) :
    ∃ j, get_project_context store name = Except.ok j := by
  obtain ⟨o, ho⟩ := load_project_wf store name hwf
  apply isOkB_exists
  cases o with
  | none => simp only [get_project_context, ho]; rfl
  | some p => simp only [get_project_context, ho]; rfl

theorem read_file_wf (store : Store) (fs : FS) (name fp : String)
    (hwf : wfStore store) :
    ∃ j, read_file store fs name fp = Except.ok j := by
  obtain ⟨o, ho⟩ := load_project_wf store name hwf
  apply isOkB_exists
  cases o with
  | none => simp only [read_file, ho]; rfl
  | some p =>
    simp only [read_file, ho]
    repeat' split
    all_goals rfl

theorem search_code_wf (store : Store) (fs : FS) (name qs : String)
    (hwf : wfStore store) :
    ∃ j, search_code store fs name qs = Except.ok j := by
  obtain ⟨o, ho⟩ := load_project_wf store name hwf
  apply isOkB_exists
  cases o with
  | none => simp only [search_code, ho]; rfl
  | some p =>
    simp only [search_code, ho]
    split
    · rfl
    · split
      · rfl
      · rfl

theorem execInvocation_wf (store : Store) (fs : FS) (inv : Invocation)
    (hwf : wfStore store) :
    ∃ j, execInvocation store fs inv = Except.ok j := by
  apply isOkB_exists
  unfold execInvocation
  split
  · rfl
  · obtain ⟨j, hj⟩ := get_project_context_wf store _ hwf
    exact isOkB_of_eq_ok _ j hj
  · obtain ⟨j, hj⟩ := read_file_wf store fs _ _ hwf
    exact isOkB_of_eq_ok _ j hj
  · obtain ⟨j, hj⟩ := search_code_wf store fs _ _ hwf
    exact isOkB_of_eq_ok _ j hj
  · rfl

/-- The result of one invocation, as a total function of that invocation
alone (under `wfStore` it is exactly what `execInvocation` returns). -/
def execResult (store : Store) (fs : FS) (inv : Invocation) : Json :=
  match execInvocation store fs inv with
  | Except.ok j => j
  | Except.error _ => Json.null

theorem runToolCalls_wf (store : Store) (fs : FS) (batch : List Invocation)
    (hwf : wfStore store) :
    runToolCalls store fs batch =
      Except.ok (batch.map (fun inv => (inv.id, execResult store fs inv))) := by
  induction batch with
  | nil => rfl
  | cons inv rest ih =>
    obtain ⟨j, hj⟩ := execInvocation_wf store fs inv hwf
    simp only [runToolCalls, ih, hj, List.map_cons]
    simp [execResult, hj]

theorem append_ne_of_headq (a t b : String) (hne : a.data ≠ [])
    (h : a.data.head? ≠ b.data.head?) : a ++ t ≠ b := by
  intro he
  apply h
  have hd := congrArg String.data he
  rw [String.data_append] at hd
  rw [← hd]
  cases ha : a.data with
  | nil => exact absurd ha hne
  | cons c cs => simp [ha]

theorem find?_cons_pos {β : Type} (pred : β → Bool) (a : β) (l : List β)
    (h : pred a = true) : List.find? pred (a :: l) = some a := by
  simp [List.find?, h]

theorem find?_cons_neg {β : Type} (pred : β → Bool) (a : β) (l : List β)
    (h : pred a = false) : List.find? pred (a :: l) = List.find? pred l := by
  simp [List.find?, h]

theorem lookupUser_update (users : List (String × UserProfile))
    (phone : String) (u : UserProfile) (v : Option String)
    (h : lookupUser users phone = some u) :
    lookupUser (users.map (fun e =>
        if e.1 == phone then (e.1, { e.2 with last_project := v }) else e))
      phone = some { u with last_project := v } := by
  induction users with
  | nil => simp [lookupUser] at h
  | cons a as ih =>
    simp only [List.map_cons]
    by_cases ha : (a.1 == phone) = true
    · rw [if_pos ha]
      unfold lookupUser at h ⊢
      rw [find?_cons_pos (fun e : String × UserProfile => e.1 == phone)
        a as ha] at h
      simp only [Option.map_some', Option.some.injEq] at h
      rw [find?_cons_pos (fun e : String × UserProfile => e.1 == phone)
        (a.1, { a.2 with last_project := v }) _ ha]
      simp [h]
    · rw [if_neg ha]
      unfold lookupUser at h ⊢
      rw [find?_cons_neg (fun e : String × UserProfile => e.1 == phone)
        a as (by simpa using ha)] at h
      rw [find?_cons_neg (fun e : String × UserProfile => e.1 == phone)
        a _ (by simpa using ha)]
      exact ih h

theorem mem_recentEntries_key (store : Store) (z : String × Project)
    (h : z ∈ recentEntries store) :
    z.1 = z.2.last_context_update.getD "" := by
  unfold recentEntries at h
  rw [List.mem_filterMap] at h
  obtain ⟨a, _, ha⟩ := h
  cases h2 : a.2 with
  | none => rw [h2] at ha; simp at ha
  | some p =>
    rw [h2] at ha
    injection ha with ha
    rw [← ha]

theorem get_most_recent_project_max (store : Store) (p : Project)
    (h : get_most_recent_project store = some p) :
    (∃ k, (k, p) ∈ recentEntries store) ∧
      ∀ z ∈ recentEntries store,
        strLtB (p.last_context_update.getD "") z.1 = false := by
  unfold get_most_recent_project at h
  cases hs : sortD (recentEntries store) with
  | nil => rw [hs] at h; cases h
  | cons e rest =>
    rw [hs] at h
    simp only [Option.some.injEq] at h
    obtain ⟨hmem, hmax⟩ := sortD_head_max _ e rest hs
    have hkey : e.1 = e.2.last_context_update.getD "" :=
      mem_recentEntries_key store e hmem
    constructor
    · exact ⟨e.1, by
        have : e = (e.1, e.2) := rfl
        rw [← h]
        exact hmem⟩
    · intro z hz
      have := hmax z hz
      rw [hkey, h] at this
      exact this

/-! ### Claim C1: the read_file path-traversal guard -/

/-- The resolved project path of `read_file` (server.py line 107). -/
def projResolved (p : Project) : List String :=
  resolveComps [] (splitPath (p.path.getD ""))

/-- The resolved target path of `read_file` (server.py lines 102 and 106). -/
def fullResolved (p : Project) (file_path : String) : List String :=
  if strStartsWith file_path "/" then resolveComps [] (splitPath file_path)
  else resolveComps [] (splitPath (p.path.getD "") ++ splitPath file_path)

/-- A project registered at the root `/e`. -/
def projE : Project :=
  { name := some "proj", path := some "/e", context := none,
    last_context_update := none }

/-- A store holding only `projE`. -/
def storeC1 : Store := [("proj", some projE)]

/-- A filesystem with a regular file `/etc/passwd`. -/
def fsC1 : FS :=
  { files := [(["etc", "passwd"], "root:x")], dirs := [[], ["e"], ["etc"]] }

/-- C1 counterexample: for project root `/e` the relative argument
`../../etc/passwd` resolves to `/etc/passwd`, which lies outside the project
directory (`compsUnder` is false), yet `read_file` serves the file content
instead of the access-denied error: `str(full).startswith(str(project))`
accepts `/etc/passwd` because it begins with the string `/e`.  This refutes
"whenever the resolved path lies outside the project path, read_file returns
an access-denied error, for any project root". -/
theorem c1_counterexample :
    compsUnder (projResolved projE) (fullResolved projE "../../etc/passwd")
        = false
    ∧ read_file storeC1 fsC1 "proj" "../../etc/passwd" =
        Except.ok (Json.obj
          [("file", Json.str "../../etc/passwd"),
           ("content", Json.str "root:x"),
           ("lines", Json.num 1)]) :=
  ⟨rfl, rfl⟩

/-- C1 (amended): for every store, filesystem and relative path, once the
project loads, `read_file` returns the access-denied error precisely when the
string rendering of the resolved target path does not start with the string
rendering of the resolved project path.  (Paths outside the project whose
rendering happens to share that string prefix are not rejected.) -/
theorem c1_amended (store : Store) (fs : FS) (name file_path : String)
    (p : Project) (hload : load_project store name = Except.ok (some p)) :
    (read_file store fs name file_path =
        Except.ok (errJ "Access denied: file outside project directory"))
      ↔ strStartsWith (renderAbs (fullResolved p file_path))
          (renderAbs (projResolved p)) = false := by
  simp only [read_file, hload]
  simp only [fullResolved, projResolved]
  generalize strStartsWith
    (renderAbs (if strStartsWith file_path "/" then
        resolveComps [] (splitPath file_path)
      else resolveComps [] (splitPath (p.path.getD "") ++
        splitPath file_path)))
    (renderAbs (resolveComps [] (splitPath (p.path.getD "")))) = g
  cases g with
  | false => simp
  | true =>
    simp only [Bool.not_true]
    constructor
    · intro h
      exfalso
      rw [if_neg (by simp)] at h
      repeat' split at h
      all_goals simp [errJ] at h
      all_goals first
        | exact absurd h (append_ne_of_headq "File not found: " file_path
            "Access denied: file outside project directory"
            (by decide) (by decide))
        | exact absurd h (append_ne_of_headq "Not a file: " file_path
            "Access denied: file outside project directory"
            (by decide) (by decide))
    · intro h
      exact absurd h (by simp)

/-- A project at root `/a` for the amended-claim witness. -/
def projA1 : Project :=
  { name := some "p", path := some "/a", context := none,
    last_context_update := none }

/-- Store for the amended-claim witness. -/
def storeC1w : Store := [("p", some projA1)]

/-- Filesystem for the amended-claim witness. -/
def fsC1w : FS := { files := [], dirs := [[], ["a"]] }

/-- Witness for c1_amended at a concrete input: `/etc/x` does not render with
string prefix `/a`, so the access-denied error is returned. -/
theorem c1_amended_witness :
    load_project storeC1w "p" = Except.ok (some projA1) ∧
    (read_file storeC1w fsC1w "p" "/etc/x" =
        Except.ok (errJ "Access denied: file outside project directory")
      ↔ strStartsWith (renderAbs (fullResolved projA1 "/etc/x"))
          (renderAbs (projResolved projA1)) = false) :=
  ⟨rfl, c1_amended storeC1w fsC1w "p" "/etc/x" projA1 rfl⟩

/-! ### Claim C2: the Tool Executor never raises -/

/-- C2 (code bug): the spec contract says the tool operations never raise and
return every failure as a structured error object, but a project document
rejected by `json.loads` makes `load_project` raise out of
`get_project_context`, `read_file` and `search_code` (the `json.loads` call
on server.py lines 51 and 56 is outside any `try`), so the executor raises to
its caller instead of producing a structured error result. -/
theorem c2_executor_raises :
    get_project_context [("bad", none)] "bad" =
        Except.error "JSONDecodeError" ∧
    read_file [("bad", none)] ⟨[], []⟩ "bad" "x" =
        Except.error "JSONDecodeError" ∧
    search_code [("bad", none)] ⟨[], []⟩ "bad" "y" =
        Except.error "JSONDecodeError" :=
  ⟨rfl, rfl, rfl⟩

/-! ### Claim C3: tool-call batch isolation -/

/-- A get_project_context invocation with the given call id and project. -/
def gpcInv (callId pn : String) : Invocation :=
  { id := some callId, fname := some "get_project_context",
    args := ToolArgs.obj [("project_name", Json.str pn)] }

/-- A well-formed project for the C3 store. -/
def projP3 : Project :=
  { name := some "p", path := some "/p", context := none,
    last_context_update := none }

/-- A store with one good project and one malformed document. -/
def storeC3x : Store := [("p", some projP3), ("bad", none)]

/-- Filesystem for the C3 scenarios. -/
def fsC3 : FS := { files := [], dirs := [[], ["p"]] }

/-- C3 counterexample: in a batch of three invocations, invocation 2 touches
the malformed document `bad.json`, `json.loads` raises, and the raise aborts
the whole `for` loop of `do_POST`: the request produces no response at all
instead of three results, so a failure of one invocation does prevent the
others from returning results. -/
theorem c3_counterexample :
    doPost storeC3x fsC3 ⟨[], none, []⟩ "/t" "s" "i"
        (some { mtype := some "tool-calls",
                toolCalls := [gpcInv "1" "p", gpcInv "2" "bad",
                              gpcInv "3" "p"] }) =
      Except.error "JSONDecodeError" := rfl

/-- C3 (amended): provided every store document parses (so no invocation can
raise), a tool-calls batch of n invocations yields exactly n results, each
correlated to its invocation call id and computed from that invocation alone,
so an error result in one invocation does not affect the others. -/
theorem c3_amended (store : Store) (fs : FS) (config : Config)
    (td ns ni : String) (batch : List Invocation) (hwf : wfStore store) :
    doPost store fs config td ns ni
        (some { mtype := some "tool-calls", toolCalls := batch }) =
      Except.ok ⟨200, Json.obj [("results", Json.arr (batch.map (fun inv =>
        Json.obj [("toolCallId", optStrJ inv.id),
                  ("result", execResult store fs inv)])))], none, []⟩ ∧
    (batch.map (fun inv =>
        Json.obj [("toolCallId", optStrJ inv.id),
                  ("result", execResult store fs inv)])).length =
      batch.length := by
  constructor
  · simp only [doPost]
    rw [runToolCalls_wf store fs batch hwf]
    simp [List.map_map, Function.comp_def]
  · exact List.length_map _ _

/-- Projects for the C3 witness store. -/
def pAlpha : Project :=
  { name := some "alpha", path := some "/a", context := none,
    last_context_update := none }

/-- Second project for the C3 witness store. -/
def pBeta : Project :=
  { name := some "beta", path := some "/b", context := none,
    last_context_update := none }

/-- A fully parseable two-project store. -/
def storeC3w : Store := [("alpha", some pAlpha), ("beta", some pBeta)]

/-- Witness for c3_amended: the batch of 3 from the spec example, where
invocation 2 names a nonexistent project, returns exactly 3 results with
invocation 2 an error object and invocations 1 and 3 successful. -/
theorem c3_amended_witness :
    wfStore storeC3w ∧
    (doPost storeC3w fsC3 ⟨[], none, []⟩ "/t" "s" "i"
        (some { mtype := some "tool-calls",
                toolCalls := [gpcInv "id1" "alpha", gpcInv "id2" "nope",
                              gpcInv "id3" "beta"] }) =
      Except.ok ⟨200, Json.obj [("results", Json.arr
        ([gpcInv "id1" "alpha", gpcInv "id2" "nope", gpcInv "id3" "beta"].map
          (fun inv =>
            Json.obj [("toolCallId", optStrJ inv.id),
                      ("result", execResult storeC3w fsC3 inv)])))],
        none, []⟩ ∧
     ([gpcInv "id1" "alpha", gpcInv "id2" "nope", gpcInv "id3" "beta"].map
        (fun inv =>
          Json.obj [("toolCallId", optStrJ inv.id),
                    ("result", execResult storeC3w fsC3 inv)])).length = 3) ∧
    execResult storeC3w fsC3 (gpcInv "id2" "nope") =
      errJ ("Project " ++ q "nope" ++
        " not found. Use list_projects to see available projects.") ∧
    jget (execResult storeC3w fsC3 (gpcInv "id1" "alpha")) "error" = none ∧
    jget (execResult storeC3w fsC3 (gpcInv "id3" "beta")) "error" = none := by
  refine ⟨?hwf, ?main, rfl, rfl, rfl⟩
  case hwf => unfold wfStore; decide
  case main =>
    have h := c3_amended storeC3w fsC3 ⟨[], none, []⟩ "/t" "s" "i"
      [gpcInv "id1" "alpha", gpcInv "id2" "nope", gpcInv "id3" "beta"]
      (by unfold wfStore; decide)
    exact ⟨h.1, h.2⟩

/-! ### Claim C4: last_project persistence after resolution -/

/-- A config whose users map is empty but whose owner number is set. -/
def cfgC4 : Config :=
  { users := [], user_phone := some "+15551234567", tool_ids := [] }

/-- The single registered project of the C4 store. -/
def projP4 : Project :=
  { name := some "p4", path := some "/p4", context := none,
    last_context_update := some "2024-01-01T00:00:00" }

/-- Store for the C4 counterexample. -/
def storeC4 : Store := [("p4", some projP4)]

/-- The assistant-request message of the C4 counterexample. -/
def msgC4 : Msg :=
  { mtype := some "assistant-request", customerNumber := some "+15551234567" }

/-- C4 counterexample: the owner-number fallback resolves the caller to a
synthesized profile and then to the concrete project `p4` (the full
with-project assistant response is returned), yet no config is persisted:
the source only saves when `caller_phone in users`, and the synthesized
profile has no users entry.  This refutes "on every successful resolution to
a concrete project the profile last_project is updated and the config is
persisted immediately". -/
theorem c4_counterexample :
    handle_assistant_request storeC4 cfgC4 msgC4 =
      Except.ok (assistantWithProject cfgC4 "there" projP4, none) := rfl

/-- C4 (amended): the last_project update and the immediate persist happen
exactly for callers whose number has an entry in the users map: for such a
caller, resolution to a concrete project (via last_project or via the
most-recently-updated fallback) returns the saved config with that profile
pointing at the resolved project name. -/
theorem c4_amended (store : Store) (config : Config) (msg : Msg)
    (u : UserProfile) (lp : Option Project) (p : Project)
    (hu : lookupUser config.users ((msg.customerNumber).getD "") = some u)
    (hphone : ((msg.customerNumber).getD "") ≠ "")
    (hload : loadLastProject store u.last_project = Except.ok lp)
    (hproj : projectOrRecent store lp = some p) :
    handle_assistant_request store config msg =
      Except.ok (assistantWithProject config (u.name.getD "there") p,
        some (configWithLastProject config ((msg.customerNumber).getD "")
          p.name)) ∧
    lookupUser (configWithLastProject config ((msg.customerNumber).getD "")
        p.name).users ((msg.customerNumber).getD "") =
      some { u with last_project := p.name } := by
  have hfind : ∃ e, config.users.find?
      (fun x => x.1 == (msg.customerNumber).getD "") = some e ∧ e.2 = u := by
    unfold lookupUser at hu
    rcases Option.map_eq_some'.mp hu with ⟨e, he, he2⟩
    exact ⟨e, he, he2⟩
  obtain ⟨e, hfind, _⟩ := hfind
  constructor
  · simp only [handle_assistant_request, hu, hload, hproj, hfind]
    simp [hphone]
  · exact lookupUser_update config.users _ u p.name hu

/-- Config with a registered user entry for the C4 witness. -/
def cfgC4w : Config :=
  { users := [("+1", { name := some "Sam", last_project := none })],
    user_phone := none, tool_ids := [] }

/-- The assistant-request message of the C4 witness. -/
def msgC4w : Msg :=
  { mtype := some "assistant-request", customerNumber := some "+1" }

/-- Witness for c4_amended: a registered caller with no last project falls
back to the most recent project `p4`, and the saved config points the profile
at it. -/
theorem c4_amended_witness :
    lookupUser cfgC4w.users "+1" =
        some { name := some "Sam", last_project := none } ∧
    loadLastProject storeC4 none = Except.ok none ∧
    projectOrRecent storeC4 none = some projP4 ∧
    (handle_assistant_request storeC4 cfgC4w msgC4w =
      Except.ok (assistantWithProject cfgC4w "Sam" projP4,
        some (configWithLastProject cfgC4w "+1" (some "p4"))) ∧
     lookupUser (configWithLastProject cfgC4w "+1" (some "p4")).users "+1" =
       some { name := some "Sam", last_project := some "p4" }) := by
  refine ⟨rfl, rfl, rfl, ?_⟩
  have h := c4_amended storeC4 cfgC4w msgC4w
    { name := some "Sam", last_project := none } none projP4
    rfl (by decide) rfl rfl
  exact ⟨h.1, h.2⟩

/-! ### Claim C5: search_code with an empty query -/

/-- A project at `/p5` for the C5 scenarios. -/
def projP5 : Project :=
  { name := some "p5", path := some "/p5", context := none,
    last_context_update := none }

/-- Store for the C5 scenarios. -/
def storeC5 : Store := [("p5", some projP5)]

/-- Filesystem with one two-line source file under the project. -/
def fsC5 : FS :=
  { files := [(["p5", "a.py"], "hello\nworld")], dirs := [[], ["p5"]] }

/-- C5 counterexample: with an empty query, `grep -i ""` matches every line
of every allow-listed file, so on a project containing a two-line `a.py` the
result is a two-match object with no "message" field: not the explicit
no-matches indicator the claim promises for every project. -/
theorem c5_counterexample :
    search_code storeC5 fsC5 "p5" "" =
      Except.ok (Json.obj [("query", Json.str ""),
        ("matches", Json.arr [Json.str "a.py:1:hello",
                              Json.str "a.py:2:world"])]) ∧
    jget (Json.obj [("query", Json.str ""),
        ("matches", Json.arr [Json.str "a.py:1:hello",
                              Json.str "a.py:2:world"])]) "message" = none :=
  ⟨rfl, rfl⟩

/-- C5 (amended): an empty query never errors and never raises once the
project loads and its path exists; it returns the explicit no-matches object
exactly when the project tree holds no lines of allow-listed files, and
otherwise returns between 1 and 10 matches, because an empty pattern matches
every line. -/
theorem c5_amended (store : Store) (fs : FS) (name : String) (p : Project)
    (hload : load_project store name = Except.ok (some p))
    (hex : fsExists fs (resolveComps [] (splitPath (p.path.getD ""))) =
      true) :
    (grepLines fs (p.path.getD "") "" = [] →
      search_code store fs name "" =
        Except.ok (Json.obj [("query", Json.str ""),
          ("matches", Json.arr []),
          ("message", Json.str "No matches found")])) ∧
    (grepLines fs (p.path.getD "") "" ≠ [] →
      ∃ ms, search_code store fs name "" =
          Except.ok (Json.obj [("query", Json.str ""),
            ("matches", Json.arr ms)]) ∧
        1 ≤ ms.length ∧ ms.length ≤ 10) := by
  constructor
  · intro hnil
    simp [search_code, hload, hex, hnil]
  · intro hne
    cases hls : grepLines fs (p.path.getD "") "" with
    | nil => exact absurd hls hne
    | cons a l =>
      refine ⟨(((a :: l).take 10).map (fun m =>
        strTake (strReplaceAll m ((p.path.getD "") ++ "/") "") 200)).map
          Json.str, ?_, ?_, ?_⟩
      · simp [search_code, hload, hex, hls]
      · simp
      · simp only [List.length_map, List.length_take]
        exact Nat.min_le_left _ _

/-- Witness for c5_amended at a concrete input: the project tree has lines,
so the empty query returns matches (here 2), not the no-matches indicator. -/
theorem c5_amended_witness :
    load_project storeC5 "p5" = Except.ok (some projP5) ∧
    fsExists fsC5 (resolveComps [] (splitPath (projP5.path.getD ""))) =
      true ∧
    grepLines fsC5 (projP5.path.getD "") "" ≠ [] ∧
    (∃ ms, search_code storeC5 fsC5 "p5" "" =
        Except.ok (Json.obj [("query", Json.str ""),
          ("matches", Json.arr ms)]) ∧
      1 ≤ ms.length ∧ ms.length ≤ 10) :=
  ⟨rfl, rfl, by decide,
    (c5_amended storeC5 fsC5 "p5" projP5 rfl rfl).2 (by decide)⟩

/-! ### Claim C6: end-of-call transcript persistence -/

/-- C6: for every end-of-call event, an empty transcript writes no file and
answers status ok / "no transcript"; a non-empty transcript writes exactly
one file whose name is the timestamp joined to the resolved project name,
whose path is reported back, and whose content contains the literal
transcript text. -/
theorem c6_transcript_persistence (store : Store) (config : Config)
    (td ns ni : String) (msg : Msg) :
    ((msg.transcript).getD "" = "" →
      handle_end_of_call_report store config td ns ni msg =
        (Json.obj [("status", Json.str "ok"),
                   ("message", Json.str "no transcript")], [])) ∧
    ((msg.transcript).getD "" ≠ "" →
      ∃ content,
        handle_end_of_call_report store config td ns ni msg =
          (Json.obj [("status", Json.str "ok"),
            ("transcript_path", Json.str (td ++ "/" ++
              (ns ++ "_" ++ resolveEocProject store config msg ++ ".md")))],
           [(ns ++ "_" ++ resolveEocProject store config msg ++ ".md",
             content)]) ∧
        ∃ pre post, content = pre ++ (msg.transcript).getD "" ++ post) := by
  constructor
  · intro h
    simp [handle_end_of_call_report, h]
  · intro h
    have hb : (((msg.transcript).getD "") == "") = false := by
      simpa using h
    refine ⟨eocContentPre store config ni msg ++ (msg.transcript).getD ""
        ++ eocContentPost msg, ?main,
      eocContentPre store config ni msg, eocContentPost msg, rfl⟩
    case main =>
      simp only [handle_end_of_call_report, hb]
      rfl

/-- End-of-call message with a non-empty transcript for the C6 witness. -/
def msgC6 : Msg :=
  { mtype := some "end-of-call-report", transcript := some "hi there",
    metaProject := some "p4", callId := some "c1" }

/-- End-of-call message with no transcript for the C6 witness. -/
def msgC6e : Msg :=
  { mtype := some "end-of-call-report", transcript := some "",
    metaProject := some "p4" }

/-- Witness for c6_transcript_persistence at concrete events: the empty
transcript writes nothing, the non-empty one writes one timestamped file
containing the transcript. -/
theorem c6_transcript_persistence_witness :
    ((msgC6e.transcript).getD "" = "" ∧
      handle_end_of_call_report storeC4 cfgC4 "/t" "20240101_000000"
          "2024-01-01T00:00:00" msgC6e =
        (Json.obj [("status", Json.str "ok"),
                   ("message", Json.str "no transcript")], [])) ∧
    ((msgC6.transcript).getD "" ≠ "" ∧
      ∃ content,
        handle_end_of_call_report storeC4 cfgC4 "/t" "20240101_000000"
            "2024-01-01T00:00:00" msgC6 =
          (Json.obj [("status", Json.str "ok"),
            ("transcript_path", Json.str ("/t" ++ "/" ++
              ("20240101_000000" ++ "_" ++
                resolveEocProject storeC4 cfgC4 msgC6 ++ ".md")))],
           [("20240101_000000" ++ "_" ++
               resolveEocProject storeC4 cfgC4 msgC6 ++ ".md", content)]) ∧
        ∃ pre post, content = pre ++ (msgC6.transcript).getD "" ++ post) :=
  ⟨⟨rfl, (c6_transcript_persistence storeC4 cfgC4 "/t" "20240101_000000"
      "2024-01-01T00:00:00" msgC6e).1 rfl⟩,
   ⟨by decide, (c6_transcript_persistence storeC4 cfgC4 "/t"
      "20240101_000000" "2024-01-01T00:00:00" msgC6).2 (by decide)⟩⟩

/-! ### Claim C7: owner-number fallback resolution -/

/-- C7: a caller whose number has no users entry but equals the configured
owner number resolves to the synthesized profile named "there" with no last
project, and falls through to the most-recently-updated project: the handler
returns the full with-project response greeting "there", and (the synthesized
profile having no users entry) persists nothing. -/
theorem c7_owner_fallback (store : Store) (config : Config) (msg : Msg)
    (p : Project)
    (hu : lookupUser config.users ((msg.customerNumber).getD "") = none)
    (hop : config.user_phone = some ((msg.customerNumber).getD ""))
    (hp : get_most_recent_project store = some p) :
    handle_assistant_request store config msg =
      Except.ok (assistantWithProject config "there" p, none) := by
  have hfind : config.users.find?
      (fun e => e.1 == (msg.customerNumber).getD "") = none := by
    unfold lookupUser at hu
    exact Option.map_eq_none'.mp hu
  simp only [handle_assistant_request, hu, hop, hfind]
  simp [loadLastProject, projectOrRecent, pyTruthy, hp]

/-- Config for the C7 witness: no users entry, owner number configured, as in
the spec example phone `+15551234567`. -/
def cfgC7 : Config :=
  { users := [], user_phone := some "+15551234567", tool_ids := [] }

/-- Project for the C7 witness. -/
def projC7 : Project :=
  { name := some "voice", path := some "/v", context := none,
    last_context_update := some "2024-03-01T00:00:00" }

/-- Store for the C7 witness. -/
def storeC7 : Store := [("voice", some projC7)]

/-- Message for the C7 witness. -/
def msgC7 : Msg :=
  { mtype := some "assistant-request", customerNumber := some "+15551234567" }

/-- Witness for c7_owner_fallback at the spec example input. -/
theorem c7_owner_fallback_witness :
    lookupUser cfgC7.users "+15551234567" = none ∧
    cfgC7.user_phone = some "+15551234567" ∧
    get_most_recent_project storeC7 = some projC7 ∧
    handle_assistant_request storeC7 cfgC7 msgC7 =
      Except.ok (assistantWithProject cfgC7 "there" projC7, none) :=
  ⟨rfl, rfl, rfl, c7_owner_fallback storeC7 cfgC7 msgC7 projC7 rfl rfl rfl⟩

/-! ### Claim C8: fallback to the most-recently-updated project -/

/-- C8: whenever the resolved profile's last_project is unset, empty, or
loads no project, the resolver uses the project returned by
`get_most_recent_project`, and that project's `last_context_update` key is
lexicographically maximal among all parseable store entries. -/
theorem c8_most_recent_fallback (store : Store) (config : Config) (msg : Msg)
    (u : UserProfile) (p : Project)
    (hu : lookupUser config.users ((msg.customerNumber).getD "") = some u)
    (hlp : loadLastProject store u.last_project = Except.ok none)
    (hp : get_most_recent_project store = some p) :
    (∃ sv, handle_assistant_request store config msg =
        Except.ok (assistantWithProject config (u.name.getD "there") p,
          sv)) ∧
    ∀ z ∈ recentEntries store,
      strLtB (p.last_context_update.getD "") z.1 = false := by
  constructor
  · refine ⟨if ((msg.customerNumber).getD "") != "" &&
        (config.users.find? (fun e =>
          e.1 == (msg.customerNumber).getD "")).isSome then
        some (configWithLastProject config ((msg.customerNumber).getD "")
          p.name)
      else none, ?_⟩
    simp only [handle_assistant_request, hu, hlp, projectOrRecent, hp]
  · exact (get_most_recent_project_max store p hp).2

/-- The January project of the spec example. -/
def pJan : Project :=
  { name := some "jan", path := none, context := none,
    last_context_update := some "2024-01-01T00:00:00" }

/-- The June project of the spec example. -/
def pJun : Project :=
  { name := some "jun", path := none, context := none,
    last_context_update := some "2024-06-01T00:00:00" }

/-- Store with the two timestamps of the spec example. -/
def storeC8 : Store := [("jan", some pJan), ("jun", some pJun)]

/-- Config with a registered caller whose last_project is unset. -/
def cfgC8 : Config :=
  { users := [("+2", { name := some "Ana", last_project := none })],
    user_phone := none, tool_ids := [] }

/-- Message for the C8 witness. -/
def msgC8 : Msg :=
  { mtype := some "assistant-request", customerNumber := some "+2" }

/-- Witness for c8_most_recent_fallback: between timestamps
2024-01-01T00:00:00 and 2024-06-01T00:00:00 the resolver picks the second. -/
theorem c8_most_recent_fallback_witness :
    lookupUser cfgC8.users "+2" =
        some { name := some "Ana", last_project := none } ∧
    loadLastProject storeC8 none = Except.ok none ∧
    get_most_recent_project storeC8 = some pJun ∧
    ((∃ sv, handle_assistant_request storeC8 cfgC8 msgC8 =
        Except.ok (assistantWithProject cfgC8 "Ana" pJun, sv)) ∧
     ∀ z ∈ recentEntries storeC8,
       strLtB (pJun.last_context_update.getD "") z.1 = false) :=
  ⟨rfl, rfl, rfl,
    c8_most_recent_fallback storeC8 cfgC8 msgC8
      { name := some "Ana", last_project := none } pJun rfl rfl rfl⟩

/-! ### Claim C9: case-insensitive project lookup -/

/-- The outcome of `json.loads` on a matched document. -/
def docResult (doc : Option Project) : Except String (Option Project) :=
  match doc with
  | some p => Except.ok (some p)
  | none => Except.error "JSONDecodeError"

theorem load_project_mem (store : Store) (stem : String)
    (doc : Option Project) (hmem : (stem, doc) ∈ store)
    (hdist : ciDistinct store) :
    load_project store stem = docResult doc := by
  have hfind1 : store.find? (fun e => e.1 == stem) = some (stem, doc) := by
    apply find?_mem_unique
    · exact hmem
    · simp
    · intro y hy hpy
      apply ciDistinct_unique store stem doc hmem hdist y hy
      have : y.1 = stem := by simpa using hpy
      rw [this]
  simp only [load_project, hfind1]
  cases doc with
  | some p => rfl
  | none => rfl

/-- Snapshot whose description is "alpha". -/
def snapAlpha : Snapshot :=
  { description := some "alpha", project_type := none, git_summary := none,
    todos := none, recent_files := none, recent_commits := none }

/-- Snapshot whose description is "beta". -/
def snapBeta : Snapshot :=
  { description := some "beta", project_type := none, git_summary := none,
    todos := none, recent_files := none, recent_commits := none }

/-- Project stored as `Foo.json`. -/
def pFooUp : Project :=
  { name := some "Foo", path := none, context := some snapAlpha,
    last_context_update := none }

/-- A different project stored as `foo.json`. -/
def pFooLo : Project :=
  { name := some "foo", path := none, context := some snapBeta,
    last_context_update := none }

/-- A store holding two projects whose names differ only by case. -/
def storeC9 : Store := [("Foo", some pFooUp), ("foo", some pFooLo)]

/-- C9 counterexample: with projects registered as `Foo` and `foo`, the exact
lookup of "Foo" and the exact lookup of its lower-casing "foo" hit two
different documents, so `get_project_context(P.name)` and
`get_project_context(P.name.lower())` are not identical for P = Foo. -/
theorem c9_counterexample :
    get_project_context storeC9 "Foo" ≠
      get_project_context storeC9 (strLower "Foo") := by
  intro h
  have h2 := congrArg (fun r =>
    match r with
    | Except.ok j => jgetStr j "description"
    | Except.error _ => none) h
  have h3 : (some "alpha" : Option String) = some "beta" := h2
  exact absurd h3 (by decide)

/-- C9 (amended): for every registered project (filename stem) in a store
whose stems are pairwise distinct even case-insensitively, looking up the
stem and looking up its lower-casing return identical results. -/
theorem c9_amended (store : Store) (stem : String) (doc : Option Project)
    (hmem : (stem, doc) ∈ store) (hdist : ciDistinct store) :
    get_project_context store stem =
      get_project_context store (strLower stem) := by
  have h1 := load_project_mem store stem doc hmem hdist
  have hl := load_project_ci store stem doc hmem hdist
  have h2 : load_project store (strLower stem) = docResult doc := by
    rw [← hl]; exact h1
  unfold get_project_context
  rw [h1, h2]
  cases doc with
  | some p => rfl
  | none => rfl

/-- Store for the C9 witness: one project, case-insensitively unambiguous. -/
def storeC9w : Store := [("Alpha", some pFooUp)]

/-- Witness for c9_amended: looking up "Alpha" and "alpha" agree. -/
theorem c9_amended_witness :
    ("Alpha", some pFooUp) ∈ storeC9w ∧
    get_project_context storeC9w "Alpha" =
      get_project_context storeC9w (strLower "Alpha") :=
  ⟨by decide,
   c9_amended storeC9w "Alpha" (some pFooUp) (by decide)
     (by unfold ciDistinct; decide)⟩

/-! ### Claim C10: recent_files truncated to the first 10 -/

/-- C10: whenever a project loads, the `recent_files` field of the
get_project_context result is exactly the first 10 entries (in stored order)
of the snapshot's recent_files sequence, hence never more than 10 even though
a snapshot may store up to 20. -/
theorem c10_recent_files_truncated (store : Store) (name : String)
    (p : Project) (j : Json)
    (hload : load_project store name = Except.ok (some p))
    (hj : get_project_context store name = Except.ok j) :
    jget j "recent_files" = some (Json.arr
      ((((p.context.getD emptySnap).recent_files.getD []).take 10).map
        Json.str)) ∧
    (((p.context.getD emptySnap).recent_files.getD []).take 10).length
      ≤ 10 := by
  constructor
  · simp only [get_project_context, hload] at hj
    have hje : j = Json.obj
        [("name", optStrJ p.name),
         ("path", optStrJ p.path),
         ("description",
          Json.str ((p.context.getD emptySnap).description.getD
            "No description")),
         ("project_type",
          Json.str ((p.context.getD emptySnap).project_type.getD "Unknown")),
         ("git_status",
          Json.str ((p.context.getD emptySnap).git_summary.getD
            "No git info")),
         ("todos",
          Json.arr (((p.context.getD emptySnap).todos.getD []).map
            Json.str)),
         ("recent_files",
          Json.arr ((((p.context.getD emptySnap).recent_files.getD
            []).take 10).map Json.str))] := by
      injection hj with hj2
      exact hj2.symm
    rw [hje]
    rfl
  · rw [List.length_take]
    exact Nat.min_le_left _ _

/-- Twenty file names. -/
def filesC10 : List String := (List.range 20).map (fun i => "f" ++ toString i)

/-- A snapshot storing 20 recent files. -/
def snapC10 : Snapshot :=
  { description := none, project_type := none, git_summary := none,
    todos := none, recent_files := some filesC10, recent_commits := none }

/-- A project whose snapshot stores 20 recent files. -/
def pC10 : Project :=
  { name := some "p10", path := none, context := some snapC10,
    last_context_update := none }

/-- Store holding only `pC10`. -/
def storeC10 : Store := [("p10", some pC10)]

/-- The get_project_context result for `pC10`. -/
def jC10 : Json :=
  match get_project_context storeC10 "p10" with
  | Except.ok j => j
  | Except.error _ => Json.null

/-- Witness for c10_recent_files_truncated: the stored snapshot has 20
recent files, the returned field has exactly the first 10. -/
theorem c10_recent_files_truncated_witness :
    load_project storeC10 "p10" = Except.ok (some pC10) ∧
    get_project_context storeC10 "p10" = Except.ok jC10 ∧
    filesC10.length = 20 ∧
    (jget jC10 "recent_files" = some (Json.arr
        ((filesC10.take 10).map Json.str)) ∧
     (filesC10.take 10).length ≤ 10) :=
  ⟨rfl, rfl, rfl,
   by exact c10_recent_files_truncated storeC10 "p10" pC10 jC10 rfl rfl⟩

end CVoice
